import Mathlib

/-!
Verification of the CV_Project job-board crawlers (indeed_crawler.py,
naukri_crawler.py): the salary normalizer (parse_salary_to_annual_min_inr
and its regex grammar), the seniority flag derivation, the per-run
deduplication, the pagination loops, and the captcha recovery step.
Python regular-expression search is modelled exactly (leftmost match,
ordered alternation, greedy quantifiers with backtracking) by matchers
that return every candidate match in the engine preference order.
Python floats are modelled by exact rationals; on the digit strings the
salary regexes can produce, the two agree on every claim checked here.
-/

namespace CVProj

/-- Python regex \s character class (ASCII part; the inputs at issue use
only the space character). -/
def pySpace (c : Char) : Bool :=
  c = ' ' || c = '\t' || c = '\n' || c = '\r' || c = '\x0b' || c = '\x0c'

/-- The dash class [-–—] used by the salary range patterns. -/
def pyDash (c : Char) : Bool :=
  c = '-' || c = '–' || c = '—'

/-- Python substring containment (the in operator on str). -/
def strHas (t pat : List Char) : Bool :=
  match t with
  | [] => pat.isEmpty
  | _ :: r => pat.isPrefixOf t || strHas r pat

/-- Python str.lower, ASCII part (the keyword tests in the source only
involve ASCII letters). -/
def pyLower (s : List Char) : List Char := s.map Char.toLower

/-- Value of a digit string, most significant first. -/
def digitsToNat (ds : List Char) : ℕ :=
  ds.foldl (fun n c => 10 * n + (c.toNat - 48)) 0

/-- Exact decimal fraction: the value num / 10 ^ exp.  The salary texts
only ever produce finite decimal literals, which floats and these
fractions represent alike on every value checked in this development. -/
structure Dec where
  num : ℤ
  exp : ℕ
deriving DecidableEq

/-- Value of a decimal literal with integer part ip and fraction fp. -/
def decOfParts (ip fp : List Char) : Dec :=
  ⟨((digitsToNat ip * 10 ^ fp.length + digitsToNat fp : ℕ) : ℤ), fp.length⟩

/-- Python float(s) on the strings producible by the salary regex groups
after stripping (digits with at most one dot, possibly surrounded by
whitespace): none models a ValueError. -/
def pyFloatDec (s : List Char) : Option Dec :=
  let s1 := ((s.dropWhile pySpace).reverse.dropWhile pySpace).reverse
  let ip := s1.takeWhile (fun c => c.isDigit)
  let rest := s1.dropWhile (fun c => c.isDigit)
  match rest with
  | [] => if ip.isEmpty then none else some ⟨((digitsToNat ip : ℕ) : ℤ), 0⟩
  | c :: fr =>
    if c = '.' then
      if fr.all (fun d => d.isDigit) && !(ip.isEmpty && fr.isEmpty) then
        some (decOfParts ip fr)
      else none
    else none

/-- _to_float_rupees from both crawlers: strip the rupee sign, spaces and
commas, then float(), with 0.0 on failure. -/
def toFloatRupees (s : List Char) : Dec :=
  match pyFloatDec (s.filter (fun c => !(c = '₹' || c = ' ' || c = ','))) with
  | some q => q
  | none => ⟨0, 0⟩

/-- Multiply a decimal fraction by a natural constant. -/
def Dec.mulNat (d : Dec) (m : ℕ) : Dec := ⟨d.num * (m : ℤ), d.exp⟩

/-- The value > 0 test (the denominator is positive). -/
def Dec.isPos (d : Dec) : Bool := decide (0 < d.num)

/-- Python round() to an integer: nearest, ties to even.  With f the
floor of the value and r the remainder of num modulo 10 ^ exp, the value
is below, above or at the halfway point as 2 * r compares to 10 ^ exp. -/
def pyRound (d : Dec) : ℤ :=
  let den : ℤ := (10 : ℤ) ^ d.exp
  let f := d.num.fdiv den
  let r := d.num - f * den
  if 2 * r < den then f
  else if den < 2 * r then f + 1
  else if f % 2 = 0 then f else f + 1

/-!  The regex engine model.  Each matcher returns every way it can match
a prefix of the input, as (consumed, rest) pairs listed in the exact
preference order of a backtracking engine (greedy quantifiers longest
first, alternatives in written order).  A sequencing combinator then
yields full-pattern matches in engine order, so taking the first success
is precisely Python re semantics at one start position, and scanning
start positions left to right is re.search. -/

/-- Sequence two pattern pieces: all combined matches, preference order. -/
def seqOpts (xs : List (List Char × List Char))
    (f : List Char → List (List Char × List Char)) :
    List (List Char × List Char) :=
  xs.flatMap (fun p => (f p.2).map (fun q => (p.1 ++ q.1, q.2)))

/-- Matches of \d{1,3}, longest first. -/
def dTake3 (s : List Char) : List (List Char × List Char) :=
  let k := min 3 ((s.takeWhile (fun c => c.isDigit)).length)
  (List.range k).map (fun j => (s.take (k - j), s.drop (k - j)))

/-- Matches of \d+, longest first. -/
def dPlus : List Char → List (List Char × List Char)
  | c :: rest =>
    if c.isDigit then
      ((dPlus rest).map (fun p => (c :: p.1, p.2))) ++ [([c], rest)]
    else []
  | [] => []

/-- Matches of (?:,\d{2}){1,}, most repetitions first. -/
def repComma2 : List Char → List (List Char × List Char)
  | c :: d1 :: d2 :: rest =>
    if c = ',' && d1.isDigit && d2.isDigit then
      ((repComma2 rest).map (fun p => (c :: d1 :: d2 :: p.1, p.2))) ++
        [([c, d1, d2], rest)]
    else []
  | _ => []

/-- Matches of (?:,\d{3})+, most repetitions first. -/
def repComma3 : List Char → List (List Char × List Char)
  | c :: d1 :: d2 :: d3 :: rest =>
    if c = ',' && d1.isDigit && d2.isDigit && d3.isDigit then
      ((repComma3 rest).map (fun p => (c :: d1 :: d2 :: d3 :: p.1, p.2))) ++
        [([c, d1, d2, d3], rest)]
    else []
  | _ => []

/-- Matches of (?:\.\d+)?, present (greedy) before absent. -/
def fracOpt : List Char → List (List Char × List Char)
  | c :: rest =>
    if c = '.' then
      ((dPlus rest).map (fun p => (c :: p.1, p.2))) ++ [([], c :: rest)]
    else [([], c :: rest)]
  | [] => [([], [])]

/-- Matches of \s*, longest first. -/
def spacesOpts : List Char → List (List Char × List Char)
  | c :: rest =>
    if pySpace c then
      ((spacesOpts rest).map (fun p => (c :: p.1, p.2))) ++ [([], c :: rest)]
    else [([], c :: rest)]
  | [] => [([], [])]

/-- Matches of ₹?, present before absent. -/
def rupeeOpt : List Char → List (List Char × List Char)
  | c :: rest =>
    if c = '₹' then [([c], rest), ([], c :: rest)] else [([], c :: rest)]
  | [] => [([], [])]

/-- NUM_RE of both crawlers, alternatives in written order:
Indian grouping, then western grouping, then plain decimal. -/
def numMatches (s : List Char) : List (List Char × List Char) :=
  seqOpts (dTake3 s) repComma2 ++ seqOpts (dTake3 s) repComma3 ++
    seqOpts (dPlus s) fracOpt

/-- The group ₹?\s*NUM of RANGE_RE and VALUE_RE. -/
def curNumOpts (s : List Char) : List (List Char × List Char) :=
  seqOpts (seqOpts (rupeeOpt s) spacesOpts) numMatches

/-- Drop \s* deterministically (what follows is never a space). -/
def skipSpaces (s : List Char) : List Char := s.dropWhile pySpace

/-- Consume \s*[-–—]\s* between the two halves of a range. -/
def dashSkip (s : List Char) : Option (List Char) :=
  match skipSpaces s with
  | c :: r => if pyDash c then some (skipSpaces r) else none
  | [] => none

/-- re.search: try each start position left to right. -/
def searchLeftmost (f : List Char → Option α) : List Char → Option α
  | [] => f []
  | c :: rest => (f (c :: rest)).orElse (fun _ => searchLeftmost f rest)

/-- RANGE_RE match attempt at one position: group texts on success. -/
def rangeAt (s : List Char) : Option (List Char × List Char) :=
  (curNumOpts s).findSome? (fun p =>
    match dashSkip p.2 with
    | some r2 =>
      match curNumOpts r2 with
      | q :: _ => some (p.1, q.1)
      | [] => none
    | none => none)

/-- RANGE_RE.search. -/
def rangeSearch (text : List Char) : Option (List Char × List Char) :=
  searchLeftmost rangeAt text

/-- VALUE_RE match attempt at one position. -/
def valueAt (s : List Char) : Option (List Char) :=
  match curNumOpts s with
  | p :: _ => some p.1
  | [] => none

/-- VALUE_RE.search. -/
def valueSearch (text : List Char) : Option (List Char) :=
  searchLeftmost valueAt text

/-- The unit alternation (lpa|lakh|lac|crore), in written order. -/
inductive SalUnit | lpa | lakh | lac | crore
deriving DecidableEq

/-- Match the unit alternation as a prefix. -/
def unitAt (s : List Char) : Option SalUnit :=
  if ("lpa".toList).isPrefixOf s then some .lpa
  else if ("lakh".toList).isPrefixOf s then some .lakh
  else if ("lac".toList).isPrefixOf s then some .lac
  else if ("crore".toList).isPrefixOf s then some .crore
  else none

/-- The lakh/crore range pattern NUM - NUM unit at one position. -/
def lpaRangeAt (s : List Char) : Option (List Char × List Char × SalUnit) :=
  (numMatches s).findSome? (fun p =>
    match dashSkip p.2 with
    | some r2 =>
      (numMatches r2).findSome? (fun q =>
        (unitAt (skipSpaces q.2)).map (fun u => (p.1, q.1, u)))
    | none => none)

/-- search of the lakh/crore range pattern. -/
def lpaRangeSearch (t : List Char) : Option (List Char × List Char × SalUnit) :=
  searchLeftmost lpaRangeAt t

/-- The lakh/crore single-number pattern NUM unit at one position. -/
def lpaSingleAt (s : List Char) : Option (List Char × SalUnit) :=
  (numMatches s).findSome? (fun p =>
    (unitAt (skipSpaces p.2)).map (fun u => (p.1, u)))

/-- search of the lakh/crore single-number pattern. -/
def lpaSingleSearch (t : List Char) : Option (List Char × SalUnit) :=
  searchLeftmost lpaSingleAt t

/-!  The salary normalizer parse_salary_to_annual_min_inr.  The indeed
and naukri copies are line-for-line semantically identical (the naukri
copy computes the period flags inside the branches instead of before
them, with the same results), so one definition embeds both. -/

/-- lakh_to_inr. -/
def lakhToInr (x : Dec) : ℤ := pyRound (x.mulNat 100000)

/-- crore_to_inr. -/
def croreToInr (x : Dec) : ℤ := pyRound (x.mulNat 10000000)

/-- The unit-keyword guard of the lakh/crore branch. -/
def hasLpaKeyword (t : List Char) : Bool :=
  strHas t ("lpa".toList) || strHas t ("lakh".toList) ||
    strHas t ("lac".toList) || strHas t ("crore".toList)

/-- Period detection and annualization shared by the generic branches:
year/yr/annum keep the value, month scales by 12, day by 22*12, hour/hr
by 8*22*12, no keyword keeps the value. -/
def annualizeDec (t : List Char) (v : Dec) : Dec :=
  if strHas t ("year".toList) || strHas t ("yr".toList) ||
      strHas t ("annum".toList) then v
  else if strHas t ("month".toList) then v.mulNat 12
  else if strHas t ("day".toList) then (v.mulNat 22).mulNat 12
  else if strHas t ("hour".toList) || strHas t ("hr".toList) then
    ((v.mulNat 8).mulNat 22).mulNat 12
  else v

/-- The unit dispatch of the lakh/crore branch: crore_to_inr on crore,
lakh_to_inr on lpa, lakh and lac. -/
def scaleByUnit (u : SalUnit) (x : Dec) : ℤ :=
  match u with
  | .crore => croreToInr x
  | _ => lakhToInr x

/-- Value returned for a lakh/crore range match: the minimum of the two
converted numbers. -/
def lpaRangeValue (p : List Char × List Char × SalUnit) : ℤ :=
  min (scaleByUnit p.2.2 (toFloatRupees p.1))
    (scaleByUnit p.2.2 (toFloatRupees p.2.1))

/-- Value returned for a lakh/crore single-number match. -/
def lpaSingleValue (p : List Char × SalUnit) : ℤ :=
  scaleByUnit p.2 (toFloatRupees p.1)

/-- The body of the lakh/crore branch: range sub-pattern first, then the
single-number sub-pattern, none when neither matches. -/
def lpaBranch (t : List Char) : Option ℤ :=
  match lpaRangeSearch t with
  | some p => some (lpaRangeValue p)
  | none =>
    match lpaSingleSearch t with
    | some p => some (lpaSingleValue p)
    | none => none

/-- Value returned for a generic range match: the lower bound,
annualized and rounded. -/
def rangeValue (t : List Char) (p : List Char × List Char) : ℤ :=
  pyRound (annualizeDec t (toFloatRupees p.1))

/-- The generic period-aware branches: RANGE_RE first (lower bound of
the range), then VALUE_RE with its value > 0 check. -/
def genericBranch (text t : List Char) : Option ℤ :=
  match rangeSearch text with
  | some p => some (rangeValue t p)
  | none =>
    match valueSearch text with
    | some g =>
      if (toFloatRupees g).isPos then
        some (pyRound (annualizeDec t (toFloatRupees g)))
      else none
    | none => none

/-- parse_salary_to_annual_min_inr of both crawlers ("if not text" also
rejects the empty string). -/
def parseSalaryToAnnualMinInr (text : Option String) : Option ℤ :=
  match text with
  | none => none
  | some s =>
    let cs := s.toList
    if cs.isEmpty then none
    else
      let t := pyLower cs
      match (if hasLpaKeyword t then lpaBranch t else none) with
      | some v => some v
      | none => genericBranch cs t

/-!  Seniority flag derivation: crawl_indeed line 379 and crawl_naukri
line 253 compute is_senior from the extracted experience figure and the
lowercased title. -/

/-- crawl_indeed: years >= 6 or "senior" in title.lower() or "lead" in
title.lower(). -/
def indeedIsSenior (years : ℕ) (title : String) : Bool :=
  decide (6 ≤ years) || strHas (pyLower title.toList) ("senior".toList) ||
    strHas (pyLower title.toList) ("lead".toList)

/-- crawl_naukri: (exp_years is not None and exp_years >= 6) or
"senior" in title.lower() — no "lead" test. -/
def naukriIsSenior (expYears : Option ℕ) (title : String) : Bool :=
  (match expYears with
   | some y => decide (6 ≤ y)
   | none => false) || strHas (pyLower title.toList) ("senior".toList)

/-- The seniority rule as the specification words it, for comparison
with the two adapters: experience of at least 6 years, or a title
containing the keyword senior or the keyword lead, case-insensitively. -/
def specIsSenior (years : ℕ) (title : String) : Bool :=
  decide (6 ≤ years) || strHas (pyLower title.toList) ("senior".toList) ||
    strHas (pyLower title.toList) ("lead".toList)

/-!  The crawl loops.  The browser is abstracted as an environment
mapping a page index to what the crawler observes there; everything the
control flow inspects is kept, everything else is opaque payload. -/

/-- A card as crawl_indeed sees it after field extraction: the job key
extracted from its link (none when absent) and the remaining raw fields
as one opaque payload. -/
structure ICard where
  jk : Option String
  payload : String
deriving DecidableEq

/-- The job-key admission step of crawl_indeed (lines 350-354): a card
whose truthy key was seen before is skipped; otherwise the card is
admitted and a truthy key is registered (Python truthiness: an empty
key string acts like an absent key). -/
def indeedAdmit (seen : List String) (jk : Option String) :
    Bool × List String :=
  match jk with
  | some j =>
    if j ≠ "" ∧ j ∈ seen then (false, seen)
    else (true, if j ≠ "" then j :: seen else seen)
  | none => (true, seen)

/-- The identifier under which a card is deduplicated, none when the
card has no truthy job key. -/
def truthyJk (c : ICard) : Option String :=
  match c.jk with
  | some j => if j = "" then none else some j
  | none => none

/-- The per-card loop of crawl_indeed (lines 325-396): stop as soon as
the limit is reached, otherwise run the admission step and append the
admitted card to the collected list. -/
def indeedCardLoop (limit : ℕ) :
    List ICard → List ICard → List String → List ICard × List String
  | [], coll, seen => (coll, seen)
  | c :: rest, coll, seen =>
    if limit ≤ coll.length then (coll, seen)
    else
      let a := indeedAdmit seen c.jk
      if a.1 then indeedCardLoop limit rest (coll ++ [c]) a.2
      else indeedCardLoop limit rest coll a.2

/-- One result page as crawl_indeed observes it: whether the captcha
marker test fires on the loaded page, whether it still fires at the
recheck after the operator signal, and the extracted cards (none models
the selector-wait timeout). -/
structure IPage where
  captcha : Bool
  captchaAfterRecheck : Bool
  cards : Option (List ICard)

/-- How one page visit ends. -/
inductive PageOutcome
  | aborted
  | stopLimit
  | next
deriving DecidableEq

/-- Result of one page visit, with the number of captcha rechecks the
visit performed. -/
structure VisitRes where
  outcome : PageOutcome
  coll : List ICard
  seen : List String
  rechecks : ℕ
deriving DecidableEq

/-- Card-extraction part of one page visit: a selector timeout advances
to the next page; otherwise the card loop runs, followed by the
end-of-page limit check (line 401). -/
def indeedProcessPage (limit : ℕ) (cards : Option (List ICard))
    (coll : List ICard) (seen : List String) :
    PageOutcome × List ICard × List String :=
  match cards with
  | none => (.next, coll, seen)
  | some cs =>
    let r := indeedCardLoop limit cs coll seen
    if limit ≤ r.1.length then (.stopLimit, r.1, r.2)
    else (.next, r.1, r.2)

/-- One loop body of crawl_indeed (lines 288-402): navigate, then the
captcha guard (lines 300-310) with its single recheck after the operator
prompt — still blocked aborts the run — then normal page processing. -/
def indeedVisit (limit : ℕ) (pg : IPage) (coll : List ICard)
    (seen : List String) : VisitRes :=
  if pg.captcha then
    if pg.captchaAfterRecheck then ⟨.aborted, coll, seen, 1⟩
    else
      let r := indeedProcessPage limit pg.cards coll seen
      ⟨r.1, r.2.1, r.2.2, 1⟩
  else
    let r := indeedProcessPage limit pg.cards coll seen
    ⟨r.1, r.2.1, r.2.2, 0⟩

/-- Result of a whole crawl run. -/
structure RunRes where
  collected : List ICard
  visited : ℕ
  abortedByCaptcha : Bool
deriving DecidableEq

/-- The page loop of crawl_indeed over the remaining page indices. -/
def indeedPages (limit : ℕ) (env : ℕ → IPage) :
    List ℕ → List ICard → List String → ℕ → RunRes
  | [], coll, _, visited => ⟨coll, visited, false⟩
  | i :: rest, coll, seen, visited =>
    match indeedVisit limit (env i) coll seen with
    | ⟨.aborted, c, _, _⟩ => ⟨c, visited + 1, true⟩
    | ⟨.stopLimit, c, _, _⟩ => ⟨c, visited + 1, false⟩
    | ⟨.next, c, s, _⟩ => indeedPages limit env rest c s (visited + 1)

/-- max_pages of crawl_indeed (line 264): math.ceil(limit / 15) + 5,
written with natural ceiling division. -/
def maxPagesFor (limit : ℕ) : ℕ := (limit + 14) / 15 + 5

/-- crawl_indeed: iterate page_idx over range(max_pages) from an empty
collected list and an empty job-key registry. -/
def indeedRun (env : ℕ → IPage) (limit : ℕ) : RunRes :=
  indeedPages limit env (List.range (maxPagesFor limit)) [] [] 0

/-- save_jobs_to_db(collected) runs after the page loop on every exit of
the loop, the captcha abort included. -/
def indeedSaved (env : ℕ → IPage) (limit : ℕ) : List ICard :=
  (indeedRun env limit).collected

/-- A card as crawl_naukri sees it: the link of its title anchor and the
remaining fields as one opaque payload. -/
structure NCard where
  link : Option String
  payload : String
deriving DecidableEq

/-- The per-card loop of crawl_naukri (lines 227-266): every card is
turned into a record and appended; there is no admission check and no
limit check inside the page. -/
def naukriCardLoop : List NCard → List NCard → List NCard
  | [], jobs => jobs
  | c :: rest, jobs => naukriCardLoop rest (jobs ++ [c])

/-- What crawl_naukri observes at one page: a navigation failure, a
selector-wait failure, or the extracted cards. -/
inductive NPage
  | loadFail
  | noCards
  | cards (cs : List NCard)

/-- The while loop of crawl_naukri (lines 190-270): while the collected
count is below the limit, visit the next page; either failure breaks the
loop, otherwise every card of the page is appended.  The fuel argument
bounds the recursion in the model only — the source loop has no page
budget of its own. -/
def naukriLoop (env : ℕ → NPage) (limit : ℕ) :
    ℕ → ℕ → List NCard → ℕ → List NCard × ℕ
  | 0, _, jobs, visited => (jobs, visited)
  | fuel + 1, pn, jobs, visited =>
    if jobs.length < limit then
      match env pn with
      | .loadFail => (jobs, visited + 1)
      | .noCards => (jobs, visited + 1)
      | .cards cs =>
        naukriLoop env limit fuel (pn + 1) (naukriCardLoop cs jobs)
          (visited + 1)
    else (jobs, visited)

/-- crawl_naukri: page_num starts at 1, jobs starts empty. -/
def naukriRun (env : ℕ → NPage) (limit fuel : ℕ) : List NCard × ℕ :=
  naukriLoop env limit fuel 1 [] 0

/-- A duplicated naukri card, for the dedup counterexample. -/
def dupNCard : NCard := ⟨some "https://www.naukri.com/job-listings-1", "Java Developer"⟩

/-- A naukri environment whose every page holds one card. -/
def onePerPageEnv : ℕ → NPage := fun _ => .cards [⟨some "u", "t"⟩]

/-- A naukri environment whose every page holds two cards. -/
def twoPerPageEnv : ℕ → NPage :=
  fun _ => .cards [⟨some "u1", "t1"⟩, ⟨some "u2", "t2"⟩]

/-!  Helper lemmas. -/

theorem pyRound_nonneg (d : Dec) (h : 0 ≤ d.num) : 0 ≤ pyRound d := by
  have hden : (0 : ℤ) ≤ (10 : ℤ) ^ d.exp := by positivity
  have hf : 0 ≤ d.num.fdiv ((10 : ℤ) ^ d.exp) := Int.fdiv_nonneg h hden
  unfold pyRound
  dsimp only
  split_ifs <;> omega

theorem pyFloatDec_num_nonneg (s : List Char) (d : Dec)
    (h : pyFloatDec s = some d) : 0 ≤ d.num := by
  unfold pyFloatDec at h
  dsimp only at h
  split at h
  all_goals split_ifs at h
  all_goals first
    | exact Option.noConfusion h
    | (injection h with h'
       subst h'
       exact Int.natCast_nonneg _)

theorem toFloatRupees_num_nonneg (s : List Char) :
    0 ≤ (toFloatRupees s).num := by
  unfold toFloatRupees
  split
  · exact pyFloatDec_num_nonneg _ _ (by assumption)
  · exact le_refl 0

theorem mulNat_num_nonneg (d : Dec) (m : ℕ) (h : 0 ≤ d.num) :
    0 ≤ (d.mulNat m).num :=
  mul_nonneg h (Int.natCast_nonneg m)

theorem lakhToInr_nonneg (x : Dec) (h : 0 ≤ x.num) : 0 ≤ lakhToInr x :=
  pyRound_nonneg _ (mulNat_num_nonneg _ _ h)

theorem croreToInr_nonneg (x : Dec) (h : 0 ≤ x.num) : 0 ≤ croreToInr x :=
  pyRound_nonneg _ (mulNat_num_nonneg _ _ h)

theorem annualizeDec_num_nonneg (t : List Char) (v : Dec) (h : 0 ≤ v.num) :
    0 ≤ (annualizeDec t v).num := by
  unfold annualizeDec
  split_ifs <;>
    first
      | exact h
      | exact mulNat_num_nonneg _ _ h
      | exact mulNat_num_nonneg _ _ (mulNat_num_nonneg _ _ h)
      | exact mulNat_num_nonneg _ _ (mulNat_num_nonneg _ _
          (mulNat_num_nonneg _ _ h))

theorem scaleByUnit_nonneg (u : SalUnit) (x : Dec) (h : 0 ≤ x.num) :
    0 ≤ scaleByUnit u x := by
  cases u
  case crore => exact croreToInr_nonneg _ h
  case lpa => exact lakhToInr_nonneg _ h
  case lakh => exact lakhToInr_nonneg _ h
  case lac => exact lakhToInr_nonneg _ h

theorem lpaRangeValue_nonneg (p : List Char × List Char × SalUnit) :
    0 ≤ lpaRangeValue p :=
  le_min (scaleByUnit_nonneg _ _ (toFloatRupees_num_nonneg _))
    (scaleByUnit_nonneg _ _ (toFloatRupees_num_nonneg _))

theorem lpaSingleValue_nonneg (p : List Char × SalUnit) :
    0 ≤ lpaSingleValue p :=
  scaleByUnit_nonneg _ _ (toFloatRupees_num_nonneg _)

theorem lpaBranch_nonneg (t : List Char) (v : ℤ)
    (h : lpaBranch t = some v) : 0 ≤ v := by
  unfold lpaBranch at h
  rcases hr : lpaRangeSearch t with _ | p <;> rw [hr] at h <;> dsimp only at h
  · rcases hs : lpaSingleSearch t with _ | q <;> rw [hs] at h <;>
      dsimp only at h
    · exact Option.noConfusion h
    · injection h with h'
      subst h'
      exact lpaSingleValue_nonneg q
  · injection h with h'
    subst h'
    exact lpaRangeValue_nonneg p

theorem genericBranch_nonneg (text t : List Char) (v : ℤ)
    (h : genericBranch text t = some v) : 0 ≤ v := by
  unfold genericBranch at h
  rcases hr : rangeSearch text with _ | p <;> rw [hr] at h <;> dsimp only at h
  · rcases hs : valueSearch text with _ | g <;> rw [hs] at h <;>
      dsimp only at h
    · exact Option.noConfusion h
    · split_ifs at h
      all_goals first
        | exact Option.noConfusion h
        | (injection h with h'
           subst h'
           exact pyRound_nonneg _ (annualizeDec_num_nonneg _ _
             (toFloatRupees_num_nonneg _)))
  · injection h with h'
    subst h'
    exact pyRound_nonneg _ (annualizeDec_num_nonneg _ _
      (toFloatRupees_num_nonneg _))

theorem parseSalary_nonneg (o : Option String) (v : ℤ)
    (h : parseSalaryToAnnualMinInr o = some v) : 0 ≤ v := by
  unfold parseSalaryToAnnualMinInr at h
  rcases o with _ | s
  · exact Option.noConfusion h
  · dsimp only at h
    by_cases hemp : s.toList.isEmpty = true
    · rw [if_pos hemp] at h
      exact Option.noConfusion h
    · rw [if_neg hemp] at h
      by_cases hk : hasLpaKeyword (pyLower s.toList) = true
      · rw [if_pos hk] at h
        rcases hb : lpaBranch (pyLower s.toList) with _ | w <;>
          rw [hb] at h <;> dsimp only at h
        · exact genericBranch_nonneg _ _ _ h
        · injection h with h'
          subst h'
          exact lpaBranch_nonneg _ _ hb
      · rw [if_neg hk] at h
        dsimp only at h
        exact genericBranch_nonneg _ _ _ h

/-- The dedup invariant carried through the indeed run: collected truthy
identifiers are pairwise distinct and all registered. -/
def DedupInv (coll : List ICard) (seen : List String) : Prop :=
  (coll.filterMap truthyJk).Nodup ∧
    ∀ j ∈ coll.filterMap truthyJk, j ∈ seen

theorem indeedCardLoop_inv (limit : ℕ) (cs : List ICard) :
    ∀ coll seen, DedupInv coll seen →
      DedupInv (indeedCardLoop limit cs coll seen).1
        (indeedCardLoop limit cs coll seen).2 := by
  induction cs with
  | nil =>
    intro coll seen h
    simpa [indeedCardLoop] using h
  | cons c rest ih =>
    intro coll seen h
    simp only [indeedCardLoop]
    split_ifs with hl ha
    · exact h
    · apply ih
      rcases hjk : c.jk with _ | j
      · have ht : truthyJk c = none := by
          simp [truthyJk, hjk]
        show DedupInv (coll ++ [c]) seen
        refine ⟨?_, ?_⟩
        · simpa [List.filterMap_append, ht] using h.1
        · intro x hx
          exact h.2 x (by simpa [List.filterMap_append, ht] using hx)
      · rw [hjk] at ha
        by_cases hje : j = ""
        · subst hje
          have ht : truthyJk c = none := by
            simp [truthyJk, hjk]
          have h2 : (indeedAdmit seen (some "")).2 = seen := by
            simp [indeedAdmit]
          rw [h2]
          refine ⟨?_, ?_⟩
          · simpa [List.filterMap_append, ht] using h.1
          · intro x hx
            exact h.2 x (by simpa [List.filterMap_append, ht] using hx)
        · have hnotin : j ∉ seen := by
            intro hin
            have hf : (indeedAdmit seen (some j)).1 = false := by
              simp only [indeedAdmit]
              rw [if_pos ⟨hje, hin⟩]
            rw [hf] at ha
            exact Bool.false_ne_true ha
          have h2 : (indeedAdmit seen (some j)).2 = j :: seen := by
            simp only [indeedAdmit]
            rw [if_neg (fun hc => hnotin hc.2)]
            simp [hje]
          have ht : truthyJk c = some j := by
            simp [truthyJk, hjk, hje]
          rw [h2]
          refine ⟨?_, ?_⟩
          · rw [List.filterMap_append]
            refine List.Nodup.append h.1 (by simp [ht]) ?_
            intro x hx hx2
            simp [ht] at hx2
            subst hx2
            exact hnotin (h.2 x hx)
          · intro x hx
            rw [List.filterMap_append] at hx
            rcases List.mem_append.mp hx with hx1 | hx2
            · exact List.mem_cons_of_mem _ (h.2 x hx1)
            · simp [ht] at hx2
              subst hx2
              exact List.mem_cons_self _ _
    · apply ih
      rcases hjk : c.jk with _ | j
      · exfalso
        apply ha
        rw [hjk]
        rfl
      · rw [hjk] at ha
        have hc : j ≠ "" ∧ j ∈ seen := by
          by_contra hc
          apply ha
          simp only [indeedAdmit]
          rw [if_neg hc]
        have h2 : (indeedAdmit seen (some j)).2 = seen := by
          simp only [indeedAdmit]
          rw [if_pos hc]
        rw [h2]
        exact h

theorem indeedProcessPage_inv (limit : ℕ) (cards : Option (List ICard))
    (coll : List ICard) (seen : List String) (h : DedupInv coll seen) :
    DedupInv (indeedProcessPage limit cards coll seen).2.1
      (indeedProcessPage limit cards coll seen).2.2 := by
  unfold indeedProcessPage
  cases cards with
  | none => exact h
  | some cs =>
    dsimp only
    split_ifs <;> exact indeedCardLoop_inv limit cs coll seen h

theorem indeedVisit_inv (limit : ℕ) (pg : IPage) (coll : List ICard)
    (seen : List String) (h : DedupInv coll seen) :
    DedupInv (indeedVisit limit pg coll seen).coll
      (indeedVisit limit pg coll seen).seen := by
  unfold indeedVisit
  split_ifs <;> dsimp only <;>
    first
      | exact h
      | exact indeedProcessPage_inv limit pg.cards coll seen h

theorem indeedPages_nodup (limit : ℕ) (env : ℕ → IPage) (idxs : List ℕ) :
    ∀ coll seen visited, DedupInv coll seen →
      ((indeedPages limit env idxs coll seen
          visited).collected.filterMap truthyJk).Nodup := by
  induction idxs with
  | nil =>
    intro coll seen visited h
    simpa [indeedPages] using h.1
  | cons i rest ih =>
    intro coll seen visited h
    simp only [indeedPages]
    have hv := indeedVisit_inv limit (env i) coll seen h
    rcases hveq : indeedVisit limit (env i) coll seen with ⟨o, c, s, n⟩
    rw [hveq] at hv
    cases o <;> dsimp only
    · exact hv.1
    · exact hv.1
    · exact ih c s (visited + 1) hv

theorem indeedCardLoop_len (limit : ℕ) (cs : List ICard) :
    ∀ coll seen, coll.length ≤ limit →
      (indeedCardLoop limit cs coll seen).1.length ≤ limit := by
  induction cs with
  | nil =>
    intro coll seen h
    simpa [indeedCardLoop] using h
  | cons c rest ih =>
    intro coll seen h
    simp only [indeedCardLoop]
    split_ifs with hl ha
    · exact h
    · apply ih
      simp only [List.length_append, List.length_singleton]
      omega
    · exact ih _ _ h

theorem indeedProcessPage_len (limit : ℕ) (cards : Option (List ICard))
    (coll : List ICard) (seen : List String) (h : coll.length ≤ limit) :
    (indeedProcessPage limit cards coll seen).2.1.length ≤ limit := by
  unfold indeedProcessPage
  cases cards with
  | none => exact h
  | some cs =>
    dsimp only
    split_ifs <;> exact indeedCardLoop_len limit cs coll seen h

theorem indeedVisit_len (limit : ℕ) (pg : IPage) (coll : List ICard)
    (seen : List String) (h : coll.length ≤ limit) :
    (indeedVisit limit pg coll seen).coll.length ≤ limit := by
  unfold indeedVisit
  split_ifs <;> dsimp only <;>
    first
      | exact h
      | exact indeedProcessPage_len limit pg.cards coll seen h

theorem indeedPages_len (limit : ℕ) (env : ℕ → IPage) (idxs : List ℕ) :
    ∀ coll seen visited, coll.length ≤ limit →
      (indeedPages limit env idxs coll seen
        visited).collected.length ≤ limit := by
  induction idxs with
  | nil =>
    intro coll seen visited h
    simpa [indeedPages] using h
  | cons i rest ih =>
    intro coll seen visited h
    simp only [indeedPages]
    have hv := indeedVisit_len limit (env i) coll seen h
    rcases hveq : indeedVisit limit (env i) coll seen with ⟨o, c, s, n⟩
    rw [hveq] at hv
    cases o <;> dsimp only
    · exact hv
    · exact hv
    · exact ih c s (visited + 1) hv

theorem indeedPages_visited (limit : ℕ) (env : ℕ → IPage) (idxs : List ℕ) :
    ∀ coll seen visited,
      (indeedPages limit env idxs coll seen visited).visited ≤
        visited + idxs.length := by
  induction idxs with
  | nil =>
    intro coll seen visited
    simp [indeedPages]
  | cons i rest ih =>
    intro coll seen visited
    simp only [indeedPages]
    rcases hveq : indeedVisit limit (env i) coll seen with ⟨o, c, s, n⟩
    have hrec := ih c s (visited + 1)
    cases o <;> dsimp only <;> simp only [List.length_cons] <;> omega

theorem naukriCardLoop_eq (cards : List NCard) :
    ∀ jobs, naukriCardLoop cards jobs = jobs ++ cards := by
  induction cards with
  | nil =>
    intro jobs
    simp [naukriCardLoop]
  | cons c rest ih =>
    intro jobs
    simp [naukriCardLoop, ih]

/-!  The claims. -/

/-- Claim C1: the specification states that the normalizer maps the
Indian-grouped annual range to the lower bound 1200000.  The code
returns 0: the Indian-grouping alternative of NUM_RE cannot cover a
trailing 3-digit group, so the leftmost RANGE_RE match on this text
starts inside the first number and captures the degenerate low group
00,000.  This theorem records what the code actually computes on the
documented example, against the intended 1200000. -/
theorem c1_indian_range_eval :
    parseSalaryToAnnualMinInr (some "₹12,00,000 - ₹18,00,000 a year") =
      some 0 ∧ (0 : ℤ) ≠ 1200000 :=
  ⟨by decide, by decide⟩

/-- Claim C2: the specification states the day and hour annualizations
with 22 workdays and 8 hours, giving 528000 and 2112000.  The code
returns 52800 and 211200: VALUE_RE matches only 2,00 of 2,000 (and 1,00
of 1,000), dropping the final digit before annualizing. -/
theorem c2_day_hour_eval :
    parseSalaryToAnnualMinInr (some "₹2,000 a day") = some 52800 ∧
    parseSalaryToAnnualMinInr (some "₹1,000 an hour") = some 211200 ∧
    (52800 : ℤ) ≠ 528000 ∧ (211200 : ℤ) ≠ 2112000 :=
  ⟨by decide, by decide, by decide, by decide⟩

/-- Claim C3, counterexample: for the naukri adapter the claimed rule
fails on a card with title Lead Developer and experience 0 — the claim
makes isSenior true (the title contains lead), the code computes false
because crawl_naukri never tests for lead. -/
theorem c3_seniority_counterexample :
    ¬ (naukriIsSenior (some 0) "Lead Developer" = true ↔
        (6 ≤ (0 : ℕ) ∨
          strHas (pyLower ("Lead Developer".toList)) ("senior".toList) = true ∨
          strHas (pyLower ("Lead Developer".toList)) ("lead".toList) = true)) := by
  decide

/-- Claim C3, amended: the indeed adapter derives isSenior exactly as
the claim states (years at least 6, or senior or lead in the title,
case-insensitively); the naukri adapter derives it from years at least 6
(when extracted) or senior alone — lead is not consulted. -/
theorem c3_seniority_amended :
    (∀ (y : ℕ) (title : String),
      indeedIsSenior y title = specIsSenior y title) ∧
    (∀ (e : Option ℕ) (title : String),
      naukriIsSenior e title = true ↔
        ((∃ y, e = some y ∧ 6 ≤ y) ∨
          strHas (pyLower title.toList) ("senior".toList) = true)) := by
  refine ⟨fun y title => rfl, ?_⟩
  intro e title
  cases e <;> simp [naukriIsSenior]

/-- Claim C4, counterexample: the naukri card loop admits the same link
twice — both copies of the card become collected records, so the claim
that no identifier is admitted twice in one run fails for that adapter
(its only dedup is the INSERT OR IGNORE unique url constraint at the
persistence boundary). -/
theorem c4_dedup_counterexample :
    naukriCardLoop [dupNCard, dupNCard] [] = [dupNCard, dupNCard] ∧
    ¬ ((naukriCardLoop [dupNCard, dupNCard] []).filterMap
        (fun c => c.link)).Nodup :=
  ⟨by decide, by decide⟩

/-- Claim C4, amended: within one indeed crawl run no truthy job key is
admitted twice (the collected identifiers are pairwise distinct for
every environment and limit), a card without a key is always admitted by
the admission step, while the naukri loop appends every card with no
in-memory dedup at all. -/
theorem c4_dedup_amended :
    (∀ (env : ℕ → IPage) (limit : ℕ),
      ((indeedRun env limit).collected.filterMap truthyJk).Nodup) ∧
    (∀ seen : List String, (indeedAdmit seen none).1 = true) ∧
    (∀ (cards jobs : List NCard), naukriCardLoop cards jobs = jobs ++ cards) := by
  refine ⟨?_, fun _ => rfl, fun cards jobs => naukriCardLoop_eq cards jobs⟩
  intro env limit
  exact indeedPages_nodup limit env _ [] [] 0 ⟨List.nodup_nil, by simp⟩

/-- Claim C5, counterexample: the naukri crawler has no page budget — in
an environment yielding one card per page with limit 50 it visits 50
result pages, far beyond the ceil(50 / 15) + 5 = 9 pages the claim
allows with the repository's per-page estimate 15 and slack 5. -/
theorem c5_pages_counterexample :
    (naukriRun onePerPageEnv 50 60).2 = 50 ∧
    ¬ ((naukriRun onePerPageEnv 50 60).2 ≤ (50 + 14) / 15 + 5) :=
  ⟨by decide, by decide⟩

/-- Claim C5, amended: the indeed crawler visits at most
ceil(limit / 15) + 5 result pages in any environment (its page loop
ranges over exactly that budget); the naukri crawler computes no such
budget. -/
theorem c5_pages_amended :
    ∀ (env : ℕ → IPage) (limit : ℕ),
      (indeedRun env limit).visited ≤ (limit + 14) / 15 + 5 := by
  intro env limit
  have h := indeedPages_visited limit env
    (List.range (maxPagesFor limit)) [] [] 0
  simpa [indeedRun, maxPagesFor] using h

/-- Claim C6, counterexample: the naukri card loop has no mid-page limit
check — with limit 1 and a two-card page, both cards are collected (and
persisted), exceeding the limit. -/
theorem c6_limit_counterexample :
    (naukriRun twoPerPageEnv 1 10).1.length = 2 ∧
    ¬ ((naukriRun twoPerPageEnv 1 10).1.length ≤ 1) :=
  ⟨by decide, by decide⟩

/-- Claim C6, amended: the indeed crawler stops appending mid-page as
soon as the limit is reached, so its collected (and saved) list never
exceeds the limit in any environment; the naukri crawler checks the
limit only between pages and can overshoot. -/
theorem c6_limit_amended :
    ∀ (env : ℕ → IPage) (limit : ℕ),
      (indeedRun env limit).collected.length ≤ limit := by
  intro env limit
  exact indeedPages_len limit env _ [] [] 0 (by simp)

/-- Claim C7: the lakh/crore branch converts via the unit scale and
takes the minimum of a range: 32 LPA gives 3200000 and 12-20 LPA gives
1200000, the minimum of the range times 100000. -/
theorem c7_lpa_values :
    parseSalaryToAnnualMinInr (some "32 LPA") = some 3200000 ∧
    parseSalaryToAnnualMinInr (some "12-20 LPA") = some 1200000 :=
  ⟨by decide, by decide⟩

/-- Claim C8: when the lowercase text contains a unit keyword but
neither lakh/crore sub-pattern matches, the lakh/crore branch produces
nothing and control falls through to the generic branches — which may
still produce a value, as on the text lakh ₹500. -/
theorem c8_lpa_fallthrough :
    (∀ s : String,
      hasLpaKeyword (pyLower s.toList) = true →
      lpaRangeSearch (pyLower s.toList) = none →
      lpaSingleSearch (pyLower s.toList) = none →
      parseSalaryToAnnualMinInr (some s) =
        genericBranch s.toList (pyLower s.toList)) ∧
    parseSalaryToAnnualMinInr (some "lakh ₹500") = some 500 := by
  constructor
  · intro s h1 h2 h3
    by_cases hemp : s.toList.isEmpty = true
    · exfalso
      have hnil : s.toList = [] := by simpa using hemp
      rw [hnil] at h1
      exact absurd h1 (by decide)
    · have hb : lpaBranch (pyLower s.toList) = none := by
        unfold lpaBranch
        rw [h2, h3]
      unfold parseSalaryToAnnualMinInr
      dsimp only
      rw [if_neg hemp, if_pos h1, hb]
  · decide

/-- Claim C8, witness: the fall-through equation applied to the concrete
text lakh ₹500, whose generic branch yields 500. -/
theorem c8_lpa_fallthrough_witness :
    parseSalaryToAnnualMinInr (some "lakh ₹500") =
      genericBranch ("lakh ₹500".toList) (pyLower ("lakh ₹500".toList)) :=
  c8_lpa_fallthrough.1 "lakh ₹500" (by decide) (by decide) (by decide)

/-- Claim C9: once a captcha marker is detected on a page, the visit
performs exactly one recheck after the operator signal; it then either
aborts the run — returning, hence persisting, exactly the records
collected so far — or processes the page exactly as a captcha-free page
would, and the page loop propagates an abort as the final run result. -/
theorem c9_captcha_guard :
    ∀ (limit : ℕ) (pg : IPage) (coll : List ICard) (seen : List String),
      pg.captcha = true →
      (indeedVisit limit pg coll seen).rechecks = 1 ∧
      (pg.captchaAfterRecheck = true →
        indeedVisit limit pg coll seen = ⟨.aborted, coll, seen, 1⟩) ∧
      (pg.captchaAfterRecheck = false →
        (indeedVisit limit pg coll seen).outcome =
          (indeedVisit limit ⟨false, false, pg.cards⟩ coll seen).outcome ∧
        (indeedVisit limit pg coll seen).coll =
          (indeedVisit limit ⟨false, false, pg.cards⟩ coll seen).coll ∧
        (indeedVisit limit pg coll seen).seen =
          (indeedVisit limit ⟨false, false, pg.cards⟩ coll seen).seen) ∧
      (∀ (env : ℕ → IPage) (i : ℕ) (rest : List ℕ) (v : ℕ),
        env i = pg → pg.captchaAfterRecheck = true →
        indeedPages limit env (i :: rest) coll seen v = ⟨coll, v + 1, true⟩) := by
  intro limit pg coll seen hcap
  rcases pg with ⟨cap, rec, cards⟩
  obtain rfl : cap = true := hcap
  refine ⟨?_, ?_, ?_, ?_⟩
  · cases rec <;> simp [indeedVisit]
  · intro hrec
    obtain rfl : rec = true := hrec
    simp [indeedVisit]
  · intro hrec
    obtain rfl : rec = false := hrec
    simp [indeedVisit]
  · intro env i rest v henv hrec
    obtain rfl : rec = true := hrec
    simp [indeedPages, henv, indeedVisit]

/-- Claim C9, witness: a concrete blocked page aborts with the collected
list unchanged after its single recheck. -/
theorem c9_captcha_guard_witness :
    indeedVisit 50 ⟨true, true, none⟩ [] [] = ⟨.aborted, [], [], 1⟩ :=
  (c9_captcha_guard 50 ⟨true, true, none⟩ [] [] rfl).2.1 rfl

/-- Claim C10: the normalizer maps None to None, yields None when no
branch matches (as on the text no numbers here), and every value it does
return is a non-negative integer. -/
theorem c10_null_and_nonneg :
    parseSalaryToAnnualMinInr none = none ∧
    parseSalaryToAnnualMinInr (some "no numbers here") = none ∧
    ∀ (o : Option String) (v : ℤ),
      parseSalaryToAnnualMinInr o = some v → 0 ≤ v :=
  ⟨rfl, by decide, parseSalary_nonneg⟩

/-- Claim C10, witness: the non-negativity statement applied to the
concrete monthly range text, which parses to 1080000. -/
theorem c10_null_and_nonneg_witness : (0 : ℤ) ≤ 1080000 :=
  c10_null_and_nonneg.2.2 (some "₹90,000 - ₹1,10,000 a month") 1080000
    (by decide)

end CVProj

